import Mathlib

/-
Verification of the gait pipeline in `src/PfyMU/gait/gait.py` (class `Gait`).

The embedding below follows the Python source line by line:
* `Gait._get_gait_bouts` (lines 414-451) becomes `getGaitBouts`, with numpy
  out-of-bounds indexing modelled as `PyErr.indexError` and the explicit
  `ValueError` branch as `PyErr.startsStopsMismatch`;
* the height handling in `Gait._predict` (lines 161-168) becomes `heightBranch`;
* the wavelet-scale selection (lines 186-189 and 229-241) becomes `scales`;
* the stride-accept loop (lines 276-292) becomes `strideBuilder`;
* the valid-cycle block (lines 295-301) becomes `validCycleFlagsForBout`;
* the delta-h loop (lines 306-317) becomes `deltaHForBout`;
* the per-bout timing writes (lines 364-377) become `chainedMaskSliceAssign`,
  modelling numpy advanced-indexing copy semantics;
* the call `self._get_gait_bouts(gait_class[start:stop])` at line 213 is
  modelled by `predictSegmenterCall` together with Python positional-arity
  checking.

Sampling times and thresholds are exact rationals (the float expressions in
the source only multiply, divide and compare small decimal constants).
-/

attribute [local semireducible] Rat.mul Rat.add Rat.sub Rat.inv

/-- Python runtime errors that the modelled fragments can raise.
`startsStopsMismatch` is the explicit `ValueError` raised at line 437;
`indexError` models numpy out-of-bounds integer indexing; `typeError` models
calling with a wrong arity or multiplying `None`; `fuelOut` is an artefact of
modelling unbounded `while` loops with fuel (it is never reached with the fuel
supplied by `getGaitBouts`). -/
inductive PyErr where
  | indexError
  | typeError
  | keyError
  | startsStopsMismatch
  | fuelOut
deriving DecidableEq, Repr

deriving instance DecidableEq for Except

/-- Indices `i` with `classification[i] = 0` and `classification[i+1] = 1`:
exactly `where(diff(classification.astype(int)) == 1)[0]` (line 428), offset
by the running index `i` of the scan. -/
def risingIndicesFrom : List Bool → ℕ → List ℕ
  | a :: b :: rest, i =>
    (if a = false ∧ b = true then [i] else []) ++ risingIndicesFrom (b :: rest) (i + 1)
  | _, _ => []

/-- Indices `i` with `classification[i] = 1` and `classification[i+1] = 0`:
exactly `where(diff(classification.astype(int)) == -1)[0]` (line 429). -/
def fallingIndicesFrom : List Bool → ℕ → List ℕ
  | a :: b :: rest, i =>
    (if a = true ∧ b = false then [i] else []) ++ fallingIndicesFrom (b :: rest) (i + 1)
  | _, _ => []

/-- Truthiness of `classification[0]` for a nonempty array. -/
def headB : List Bool → Bool
  | [] => false
  | a :: _ => a

/-- Truthiness of `classification[-1]` for a nonempty array. -/
def lastB : List Bool → Bool
  | [] => false
  | [a] => a
  | _ :: b :: t => lastB (b :: t)

/-- The `starts` array after lines 428 and 431-432: rising edges, with `0`
inserted in front when the stream begins inside a bout. -/
def startsOf (c : List Bool) : List ℕ :=
  if headB c then 0 :: risingIndicesFrom c 0 else risingIndicesFrom c 0

/-- The `stops` array after lines 429 and 433-434: falling edges, with
`len(classification) - 1` appended when the stream ends inside a bout. -/
def stopsOf (c : List Bool) : List ℕ :=
  if lastB c then fallingIndicesFrom c 0 ++ [c.length - 1] else fallingIndicesFrom c 0

/-- The inner `while ((starts[nb+ncb+1] - stops[nb+ncb]) * dt) < self.max_bout_sep`
loop of lines 442-444.  The source has no bounds check, so the indexing is
modelled with `List.get?` and a `none` result raises `indexError`, just as
numpy does.  `fuel` bounds the loop; the callers pass more fuel than the loop
can consume before running off the end of `starts`. -/
def findNcb (starts stops : List ℕ) (dt maxSep : ℚ) (nb ncb fuel : ℕ) : Except PyErr ℕ :=
  match fuel with
  | 0 => .error .fuelOut
  | fuel' + 1 =>
    match starts.get? (nb + ncb + 1) with
    | none => .error .indexError
    | some s =>
      match stops.get? (nb + ncb) with
      | none => .error .indexError
      | some p =>
        if ((s : ℚ) - (p : ℚ)) * dt < maxSep then
          findNcb starts stops dt maxSep nb (ncb + 1) fuel'
        else
          .ok ncb

/-- The outer `while nb < starts.size` loop of lines 441-449: merge a group of
`ncb + 1` consecutive bouts, keep the merged bout when its duration exceeds
`min_bout`, and advance `nb` past the group. -/
def boutLoop (starts stops : List ℕ) (dt maxSep minBout : ℚ) :
    ℕ → List (ℕ × ℕ) → ℕ → Except PyErr (List (ℕ × ℕ))
  | _, _, 0 => .error .fuelOut
  | nb, acc, fuel + 1 =>
    if nb < starts.length then
      match findNcb starts stops dt maxSep nb 0 (starts.length + 1) with
      | .error e => .error e
      | .ok ncb =>
        match stops.get? (nb + ncb), starts.get? nb with
        | some p, some s =>
          boutLoop starts stops dt maxSep minBout (nb + ncb + 1)
            (if ((p : ℚ) - (s : ℚ)) * dt > minBout then acc ++ [(s, p)] else acc) fuel
        | _, _ => .error .indexError
    else
      .ok acc

/-- The bout segmenter `Gait._get_gait_bouts` (lines 414-451).  An empty
classification raises `indexError` (Python evaluates `classification[0]`);
a starts/stops length mismatch raises the `ValueError` of line 437. -/
def getGaitBouts (c : List Bool) (dt maxSep minBout : ℚ) : Except PyErr (List (ℕ × ℕ)) :=
  if c.isEmpty then .error .indexError
  else if (startsOf c).length ≠ (stopsOf c).length then .error .startsStopsMismatch
  else boutLoop (startsOf c) (stopsOf c) dt maxSep minBout 0 [] ((startsOf c).length + 1)

/-- The worked example of the specification: 1000 samples with walking runs at
indices in intervals starting and ending as listed in Section 8 of the spec. -/
def exampleClassification : List Bool :=
  List.replicate 90 true ++ List.replicate 60 false ++
  List.replicate 10 true ++ List.replicate 5 false ++
  List.replicate 15 true ++ List.replicate 20 false ++
  List.replicate 10 true ++ List.replicate 15 false ++
  List.replicate 15 true ++ List.replicate 160 false ++
  List.replicate 360 true ++ List.replicate 10 false ++
  List.replicate 10 true ++ List.replicate 210 false ++
  List.replicate 10 true

lemma risingIndicesFrom_replicate_true : ∀ (m i : ℕ),
    risingIndicesFrom (List.replicate m true) i = [] := by
  intro m
  induction m with
  | zero => intro i; rfl
  | succ k ih =>
    intro i
    cases k with
    | zero => rfl
    | succ k2 =>
      have h : List.replicate (k2 + 2) true = true :: true :: List.replicate k2 true := by
        simp [List.replicate_succ]
      rw [h]
      show ([] ++ risingIndicesFrom (true :: List.replicate k2 true) (i + 1)) = []
      rw [List.nil_append, show true :: List.replicate k2 true = List.replicate (k2 + 1) true from
        (List.replicate_succ true k2).symm]
      exact ih (i + 1)

lemma fallingIndicesFrom_replicate_true : ∀ (m i : ℕ),
    fallingIndicesFrom (List.replicate m true) i = [] := by
  intro m
  induction m with
  | zero => intro i; rfl
  | succ k ih =>
    intro i
    cases k with
    | zero => rfl
    | succ k2 =>
      have h : List.replicate (k2 + 2) true = true :: true :: List.replicate k2 true := by
        simp [List.replicate_succ]
      rw [h]
      show ([] ++ fallingIndicesFrom (true :: List.replicate k2 true) (i + 1)) = []
      rw [List.nil_append, show true :: List.replicate k2 true = List.replicate (k2 + 1) true from
        (List.replicate_succ true k2).symm]
      exact ih (i + 1)

lemma lastB_replicate_true : ∀ (m : ℕ), lastB (List.replicate (m + 1) true) = true := by
  intro m
  induction m with
  | zero => rfl
  | succ k ih =>
    have h : List.replicate (k + 2) true = true :: true :: List.replicate k true := by
      simp [List.replicate_succ]
    rw [h]
    show lastB (true :: List.replicate k true) = true
    rw [show true :: List.replicate k true = List.replicate (k + 1) true from
      (List.replicate_succ true k).symm]
    exact ih

lemma startsOf_replicate_true (m : ℕ) : startsOf (List.replicate (m + 1) true) = [0] := by
  unfold startsOf
  rw [risingIndicesFrom_replicate_true]
  rw [show headB (List.replicate (m + 1) true) = true by rw [List.replicate_succ]; rfl]
  rfl

lemma stopsOf_replicate_true (m : ℕ) : stopsOf (List.replicate (m + 1) true) = [m] := by
  unfold stopsOf
  rw [fallingIndicesFrom_replicate_true, lastB_replicate_true]
  simp

set_option maxRecDepth 10000 in
/-- C1: on the worked example (true runs at sample intervals listed in the
spec, `dt = 1/50`, `max_bout_separation_time = 0.5`, `min_bout_time = 1.5`)
the segmenter does not return the claimed bout list: after collecting
`(0, 89)`, `(149, 239)` and `(399, 779)` the merge loop reads
`starts[8]` out of bounds and raises `IndexError`. -/
theorem getGaitBouts_example_raises_indexError :
    getGaitBouts exampleClassification (1/50) (1/2) (3/2) = .error .indexError := by decide

/-- C2: for an all-true classification of any positive length the segmenter
never returns the single bout `[0, N-1]`: the `starts` array is `[0]`, and the
merge loop immediately reads `starts[1]` out of bounds, raising `IndexError`. -/
theorem getGaitBouts_all_true_raises_indexError (n : ℕ) (dt maxSep minBout : ℚ)
    (h : 1 ≤ n) :
    getGaitBouts (List.replicate n true) dt maxSep minBout = .error .indexError := by
  obtain ⟨m, rfl⟩ : ∃ m, n = m + 1 := ⟨n - 1, by omega⟩
  unfold getGaitBouts
  rw [startsOf_replicate_true, stopsOf_replicate_true]
  rw [show (List.replicate (m + 1) true).isEmpty = false by rw [List.replicate_succ]; rfl]
  rfl

/-- Witness for C2 at the concrete all-true array of length 2. -/
theorem getGaitBouts_all_true_raises_indexError_witness :
    getGaitBouts (List.replicate 2 true) 1 1 1 = .error .indexError :=
  getGaitBouts_all_true_raises_indexError 2 1 1 1 (by norm_num)

lemma rising_falling_balance : ∀ (l : List Bool) (a : Bool) (i : ℕ),
    (if a then 1 else 0) + (risingIndicesFrom (a :: l) i).length
      = (fallingIndicesFrom (a :: l) i).length + (if lastB (a :: l) then 1 else 0) := by
  intro l
  induction l with
  | nil => intro a i; cases a <;> rfl
  | cons b t ih =>
    intro a i
    have hr : risingIndicesFrom (a :: b :: t) i
        = (if a = false ∧ b = true then [i] else []) ++ risingIndicesFrom (b :: t) (i + 1) := rfl
    have hf : fallingIndicesFrom (a :: b :: t) i
        = (if a = true ∧ b = false then [i] else []) ++ fallingIndicesFrom (b :: t) (i + 1) := rfl
    have hl : lastB (a :: b :: t) = lastB (b :: t) := rfl
    rw [hr, hf, hl, List.length_append, List.length_append]
    have hb := ih b (i + 1)
    cases a <;> cases b <;> simp at hb ⊢ <;> omega

lemma findNcb_ne_mismatch : ∀ (fuel : ℕ) (starts stops : List ℕ) (dt maxSep : ℚ)
    (nb ncb : ℕ),
    findNcb starts stops dt maxSep nb ncb fuel ≠ .error .startsStopsMismatch := by
  intro fuel
  induction fuel with
  | zero => intro starts stops dt maxSep nb ncb; simp [findNcb]
  | succ f ih =>
    intro starts stops dt maxSep nb ncb
    unfold findNcb
    cases h1 : starts.get? (nb + ncb + 1) with
    | none => simp
    | some s =>
      cases h2 : stops.get? (nb + ncb) with
      | none => simp
      | some p =>
        dsimp only
        split
        · exact ih starts stops dt maxSep nb (ncb + 1)
        · simp

lemma boutLoop_ne_mismatch : ∀ (fuel : ℕ) (starts stops : List ℕ)
    (dt maxSep minBout : ℚ) (nb : ℕ) (acc : List (ℕ × ℕ)),
    boutLoop starts stops dt maxSep minBout nb acc fuel ≠ .error .startsStopsMismatch := by
  intro fuel
  induction fuel with
  | zero => intro starts stops dt maxSep minBout nb acc; simp [boutLoop]
  | succ f ih =>
    intro starts stops dt maxSep minBout nb acc
    unfold boutLoop
    split
    · cases hn : findNcb starts stops dt maxSep nb 0 (starts.length + 1) with
      | error e =>
        dsimp only
        intro hcontra
        have he : e = PyErr.startsStopsMismatch := by
          injection hcontra with he2
        exact findNcb_ne_mismatch (starts.length + 1) starts stops dt maxSep nb 0 (he ▸ hn)
      | ok ncb =>
        dsimp only
        cases h2 : stops.get? (nb + ncb) with
        | none => cases starts.get? nb <;> simp
        | some p =>
          cases h3 : starts.get? nb with
          | none => simp
          | some s =>
            dsimp only
            exact ih starts stops dt maxSep minBout (nb + ncb + 1) _
    · simp

/-- C10: for every nonempty classification array, the implicit boundary
insertions balance the rising and falling edges, so the number of bout starts
equals the number of bout stops and the `ValueError` branch of the segmenter
(line 437) is unreachable. -/
theorem starts_stops_counts_match (c : List Bool) (dt maxSep minBout : ℚ)
    (h : c ≠ []) :
    (startsOf c).length = (stopsOf c).length ∧
    getGaitBouts c dt maxSep minBout ≠ .error .startsStopsMismatch := by
  obtain ⟨a, l, rfl⟩ : ∃ a l, c = a :: l := by
    cases c with
    | nil => exact absurd rfl h
    | cons a l => exact ⟨a, l, rfl⟩
  have hlen : (startsOf (a :: l)).length = (stopsOf (a :: l)).length := by
    unfold startsOf stopsOf
    have hb := rising_falling_balance l a 0
    rw [show headB (a :: l) = a from rfl]
    cases hL : lastB (a :: l) <;> rw [hL] at hb <;> cases a <;> simp at hb ⊢ <;> omega
  refine ⟨hlen, ?_⟩
  unfold getGaitBouts
  rw [if_neg (by simp), if_neg (not_not_intro hlen)]
  exact boutLoop_ne_mismatch _ _ _ _ _ _ _ _

/-- Witness for C10 at a concrete two-sample classification. -/
theorem starts_stops_counts_match_witness :
    (startsOf [true, false]).length = (stopsOf [true, false]).length ∧
    getGaitBouts [true, false] 1 1 1 ≠ .error .startsStopsMismatch :=
  starts_stops_counts_match [true, false] 1 1 1 (by simp)

/-- Outcome of the height-handling prologue of `_predict`: the leg length that
was bound (if any) and whether the missing-height warning was emitted. -/
structure HeightOutcome where
  legLength : Option ℚ
  warned : Bool
deriving DecidableEq, Repr

/-- The guard at line 161 is written `'height' is None`: it asks whether the
string literal `'height'` is the `None` object, which is false regardless of
the argument, so the warning branch can never be taken. -/
def heightLiteralIsNone : Bool := false

/-- Lines 161-168 of `Gait._predict`.  In the else branch with the default
`leg_length = False` configuration, `leg_length = self.height_factor * height`
multiplies a float by the argument; when the argument is `None` this raises
`TypeError`.  With `leg_length = True` the argument is bound unchanged. -/
def heightBranch (height : Option ℚ) (leg_length_flag : Bool) (height_factor : ℚ) :
    Except PyErr HeightOutcome :=
  if heightLiteralIsNone then .ok ⟨none, true⟩
  else if leg_length_flag = false then
    match height with
    | some h => .ok ⟨some (height_factor * h), false⟩
    | none => .error .typeError
  else .ok ⟨height, false⟩

/-- C3: with height absent (and the default configuration `leg_length =
False`, `height_factor = 0.53`) the code does not warn and continue: the
constant-false guard `'height' is None` sends it into the else branch, where
`height_factor * None` raises `TypeError`; the warning is unreachable on every
path. -/
theorem heightBranch_none_raises_typeError :
    heightBranch none false (53/100) = .error .typeError ∧ heightLiteralIsNone = false :=
  ⟨rfl, rfl⟩

/-- Round-half-to-even on exact rationals: the tie-breaking rule used by
`numpy.round` (the `round` imported at line 9). -/
def roundHalfEven (x : ℚ) : ℤ :=
  if x - ⌊x⌋ < 1/2 then ⌊x⌋
  else if 1/2 < x - ⌊x⌋ then ⌊x⌋ + 1
  else if ⌊x⌋ % 2 = 0 then ⌊x⌋ else ⌊x⌋ + 1

/-- Line 189: `scale_original = round(0.4 / (2 * 1.25 * 1/dt)) - 1`. -/
def scale_original (dt : ℚ) : ℤ :=
  roundHalfEven (4/10 / (2 * (125/100) * (1/dt))) - 1

/-- Line 235: `ic_opt_freq = 0.69 * step_freq + 0.34`. -/
def ic_opt_freq (step_freq : ℚ) : ℚ := 69/100 * step_freq + 34/100

/-- Line 236: `fc_opt_freq = 3.6 * step_freq - 4.5`. -/
def fc_opt_freq (step_freq : ℚ) : ℚ := 36/10 * step_freq - 45/10

/-- Line 238: `scale1 = round(0.4 / (2 * ic_opt_freq * dt)) - 1`. -/
def scale1 (dt step_freq : ℚ) : ℤ :=
  roundHalfEven (4/10 / (2 * ic_opt_freq step_freq * dt)) - 1

/-- Line 239: `scale2 = round(0.4 / (2 * fc_opt_freq * dt)) - 1`. -/
def scale2 (dt step_freq : ℚ) : ℤ :=
  roundHalfEven (4/10 / (2 * fc_opt_freq step_freq * dt)) - 1

/-- Lines 229-241: the pair of scales used for the IC and FC transforms, as a
function of the `use_cwt_scale_relation` switch, `dt` and the estimated step
frequency. -/
def scales (use_opt_scale : Bool) (dt step_freq : ℚ) : ℤ × ℤ :=
  if use_opt_scale then (scale1 dt step_freq, scale2 dt step_freq)
  else (scale_original dt, scale_original dt)

/-- The claim reading of the refined scales: the baseline formula
`round(0.4 / (2 * freq / dt)) - 1` with the frequency substituted for 1.25 and
the division by `dt` kept. -/
def claimRefinedScale (freq dt : ℚ) : ℤ :=
  roundHalfEven (4/10 / (2 * freq * (1/dt))) - 1

/-- Modelled from the amended claim: the refined-scale formula the code
actually applies at lines 238-239, in which the sampling period `dt`
multiplies the frequency term instead of dividing it. -/
def amendedRefinedScale (freq dt : ℚ) : ℤ :=
  roundHalfEven (4/10 / (2 * freq * dt)) - 1

/-- C8 counterexample: at `dt = 1/50` and `step_freq = 22/23` (so that
`ic_opt_freq = 1`), the code computes an IC scale of 9, while feeding the
frequency back through the baseline formula as the claim states would give
-1.  The refined scales therefore do not come from the same formula as the
baseline scale. -/
theorem scales_claim_counterexample :
    (scales true (1/50) (22/23)).1 = 9 ∧
    claimRefinedScale (ic_opt_freq (22/23)) (1/50) = -1 ∧
    (scales true (1/50) (22/23)).1 ≠ claimRefinedScale (ic_opt_freq (22/23)) (1/50) := by
  decide

/-- C8 amended: the baseline scale equals `round(0.4 / (2 * 1.25 / dt)) - 1`
exactly as claimed; with adaptive mode disabled both scales equal the
baseline; with it enabled the refined scales use the linear frequency
relations fed through `round(0.4 / (2 * freq * dt)) - 1`, i.e. the baseline
formula with the frequency substituted for 1.25 and multiplication by `dt` in
place of the division. -/
theorem scales_follow_code_formula (dt step_freq : ℚ) :
    scale_original dt = roundHalfEven (4/10 / (2 * (125/100) / dt)) - 1 ∧
    scales true dt step_freq
      = (amendedRefinedScale (ic_opt_freq step_freq) dt,
         amendedRefinedScale (fc_opt_freq step_freq) dt) ∧
    scales false dt step_freq = (scale_original dt, scale_original dt) := by
  refine ⟨?_, rfl, rfl⟩
  unfold scale_original
  rw [mul_one_div]

/-- Line 268: `loading_forward_time = self.loading_factor * self.max_stride_time`. -/
def loading_forward_time (loading_factor max_stride_time : ℚ) : ℚ :=
  loading_factor * max_stride_time

/-- Line 269: `stance_forward_time = (self.max_stride_time / 2) + loading_forward_time`. -/
def stance_forward_time (loading_factor max_stride_time : ℚ) : ℚ :=
  max_stride_time / 2 + loading_forward_time loading_factor max_stride_time

/-- One accepted stride: the entries appended to `gait['IC']`, `gait['FC']`
and `gait['FC opp foot']` at lines 290-292. -/
structure StrideRec where
  ic : ℕ
  fc : ℕ
  fc_opp_foot : ℕ
deriving DecidableEq, Repr

/-- Line 277: `fc_forward = fc[fc_times > curr_ic]`, where `curr_ic` is the
event time `ic[i] * dt`. -/
def fc_forward (fcs : List ℕ) (dt : ℚ) (curr_ic : ℚ) : List ℕ :=
  fcs.filter (fun f : ℕ => decide ((f : ℚ) * dt > curr_ic))

/-- Lines 276-292, body of the loop over ICs: skip the IC unless exactly one
forward FC lies within the loading window and at least two lie within the
stance window; otherwise record the IC, the second forward FC as same-foot FC
and the first forward FC as opposite-foot FC. -/
def strideAccept (fcs : List ℕ) (dt loading_factor max_stride_time : ℚ) (ic_i : ℕ) :
    Option StrideRec :=
  if ((fc_forward fcs dt ((ic_i : ℚ) * dt)).filter
        (fun f : ℕ => decide ((f : ℚ) * dt <
          (ic_i : ℚ) * dt + loading_forward_time loading_factor max_stride_time))).length = 1
      ∧ 2 ≤ ((fc_forward fcs dt ((ic_i : ℚ) * dt)).filter
        (fun f : ℕ => decide ((f : ℚ) * dt <
          (ic_i : ℚ) * dt + stance_forward_time loading_factor max_stride_time))).length
  then some ⟨ic_i, (fc_forward fcs dt ((ic_i : ℚ) * dt)).getD 1 0,
         (fc_forward fcs dt ((ic_i : ℚ) * dt)).getD 0 0⟩
  else none

/-- The stride-building pass over all candidate ICs of a bout. -/
def strideBuilder (ics fcs : List ℕ) (dt loading_factor max_stride_time : ℚ) :
    List StrideRec :=
  ics.filterMap (strideAccept fcs dt loading_factor max_stride_time)

lemma sorted_filter_two {S : List ℕ} {q : ℕ → Bool}
    (hS : S.Pairwise (fun a b => a < b))
    (hdc : ∀ a b : ℕ, a ≤ b → q b = true → q a = true)
    (hlen : 2 ≤ (S.filter q).length) :
    ∃ x y t, S = x :: y :: t ∧ q x = true ∧ q y = true ∧ x < y := by
  cases S with
  | nil => simp at hlen
  | cons x S1 =>
    cases S1 with
    | nil =>
      have h1 : (List.filter q [x]).length ≤ 1 := by
        cases hqx : q x <;> simp [List.filter, hqx]
      omega
    | cons y t =>
      have hx : q x = true := by
        by_contra hxf
        rw [Bool.not_eq_true] at hxf
        have hnil : List.filter q (x :: y :: t) = [] := by
          rw [List.filter_eq_nil_iff]
          intro a ha hqa
          have hxa : x ≤ a := by
            rcases List.mem_cons.mp ha with h | h
            · omega
            · have := (List.pairwise_cons.mp hS).1 a h
              omega
          have hc := hdc x a hxa hqa
          rw [hxf] at hc
          exact Bool.noConfusion hc
        rw [hnil] at hlen
        simp at hlen
      have hy : q y = true := by
        by_contra hyf
        rw [Bool.not_eq_true] at hyf
        have hnil : List.filter q (y :: t) = [] := by
          rw [List.filter_eq_nil_iff]
          intro a ha hqa
          have hya : y ≤ a := by
            rcases List.mem_cons.mp ha with h | h
            · omega
            · have := (List.pairwise_cons.mp (List.pairwise_cons.mp hS).2).1 a h
              omega
          have hc := hdc y a hya hqa
          rw [hyf] at hc
          exact Bool.noConfusion hc
        have hsingle : List.filter q (x :: y :: t) = [x] := by
          rw [List.filter_cons_of_pos hx, hnil]
        rw [hsingle] at hlen
        simp at hlen
      exact ⟨x, y, t, rfl, hx, hy, (List.pairwise_cons.mp hS).1 y (by simp)⟩

/-- C7: for every accepted stride, the same-foot FC index is strictly greater
than the opposite-foot FC index, and both lie strictly before
`curr_ic + stance_forward_time / dt` samples, where `stance_forward_time =
max_stride_time/2 + loading_factor * max_stride_time`. -/
theorem strideBuilder_fc_ordering (ics fcs : List ℕ) (dt loading_factor max_stride_time : ℚ)
    (hdt : 0 < dt) (hsort : fcs.Pairwise (fun a b => a < b)) :
    ∀ r ∈ strideBuilder ics fcs dt loading_factor max_stride_time,
      r.fc_opp_foot < r.fc ∧
      (r.fc : ℚ) < (r.ic : ℚ) + stance_forward_time loading_factor max_stride_time / dt ∧
      (r.fc_opp_foot : ℚ) < (r.ic : ℚ) + stance_forward_time loading_factor max_stride_time / dt := by
  intro r hr
  rw [strideBuilder, List.mem_filterMap] at hr
  obtain ⟨ic_i, hmem, hacc⟩ := hr
  rw [strideAccept] at hacc
  split at hacc
  case isFalse => exact absurd hacc (by simp)
  case isTrue hcond =>
    obtain ⟨h1, h2⟩ := hcond
    injection hacc with hacc
    subst hacc
    set S := fc_forward fcs dt ((ic_i : ℚ) * dt) with hS
    have hSsort : S.Pairwise (fun a b => a < b) := by
      rw [hS]
      unfold fc_forward
      exact hsort.filter _
    have hdc : ∀ a b : ℕ, a ≤ b →
        decide ((b : ℚ) * dt <
          (ic_i : ℚ) * dt + stance_forward_time loading_factor max_stride_time) = true →
        decide ((a : ℚ) * dt <
          (ic_i : ℚ) * dt + stance_forward_time loading_factor max_stride_time) = true := by
      intro a b hab hb
      rw [decide_eq_true_iff] at hb ⊢
      have hcast : (a : ℚ) ≤ (b : ℚ) := by exact_mod_cast hab
      nlinarith [mul_le_mul_of_nonneg_right hcast (le_of_lt hdt)]
    obtain ⟨x, y, t, hSeq, hqx, hqy, hxy⟩ := sorted_filter_two hSsort hdc h2
    rw [decide_eq_true_iff] at hqx hqy
    have hfc : S.getD 1 0 = y := by rw [hSeq]; rfl
    have hopp : S.getD 0 0 = x := by rw [hSeq]; rfl
    dsimp only
    rw [hfc, hopp]
    have hbound : ∀ z : ℕ,
        (z : ℚ) * dt < (ic_i : ℚ) * dt + stance_forward_time loading_factor max_stride_time →
        (z : ℚ) < (ic_i : ℚ) + stance_forward_time loading_factor max_stride_time / dt := by
      intro z hz
      have h3 : ((z : ℚ) - (ic_i : ℚ)) * dt <
          stance_forward_time loading_factor max_stride_time := by nlinarith
      have h4 := (lt_div_iff₀ hdt).mpr h3
      linarith
    exact ⟨hxy, hbound y hqy, hbound x hqx⟩

/-- Witness for C7 at `ics = [0]`, `fcs = [10, 60, 160]`, `dt = 1/50`,
`loading_factor = 0.2`, `max_stride_time = 2.25`: the single accepted stride
is `⟨0, 60, 10⟩` and satisfies the bounds. -/
theorem strideBuilder_fc_ordering_witness :
    (StrideRec.mk 0 60 10).fc_opp_foot < (StrideRec.mk 0 60 10).fc ∧
    ((StrideRec.mk 0 60 10).fc : ℚ)
      < ((StrideRec.mk 0 60 10).ic : ℚ) + stance_forward_time (2/10) (225/100) / (1/50) ∧
    ((StrideRec.mk 0 60 10).fc_opp_foot : ℚ)
      < ((StrideRec.mk 0 60 10).ic : ℚ) + stance_forward_time (2/10) (225/100) / (1/50) :=
  strideBuilder_fc_ordering [0] [10, 60, 160] (1/50) (2/10) (225/100) (by norm_num)
    (by decide) (StrideRec.mk 0 60 10) (by decide)

/-- Lines 295-301: the flags appended to `gait['b valid cycle']` for one bout
with `sib` accepted strides.  `icAll` is the accumulated `gait['IC']` list and
`ig` the running offset of this bout within it.  When `sib > 2` the code
appends `sib - 2` computed flags, and when `sib > 0` it then appends
`[False] * sib` further flags. -/
def validCycleFlagsForBout (icAll : List ℕ) (ig sib : ℕ) (dt max_stride_time : ℚ) :
    List Bool :=
  (if sib > 2 then
    (List.range (sib - 2)).map
      (fun i : ℕ => decide (((icAll.getD (ig + i + 2) 0 : ℚ)
        - (icAll.getD (ig + i) 0 : ℚ)) * dt < max_stride_time))
  else []) ++
  (if sib > 0 then List.replicate sib false else [])

/-- C4: the parallel-sequence invariant fails.  On a bout whose stride builder
accepts exactly 3 strides, the code appends 1 computed flag and then 3 `False`
flags, so `gait['b valid cycle']` receives 4 entries for 3 stride records
instead of one flag per stride with the final two invalid. -/
theorem validCycleFlags_break_parallelism :
    (strideBuilder [0, 50, 100] [10, 60, 110, 160] (1/50) (2/10) (225/100)).length = 3 ∧
    (validCycleFlagsForBout
        ((strideBuilder [0, 50, 100] [10, 60, 110, 160] (1/50) (2/10) (225/100)).map StrideRec.ic)
        0 3 (1/50) (225/100)).length = 4 ∧
    (validCycleFlagsForBout
        ((strideBuilder [0, 50, 100] [10, 60, 110, 160] (1/50) (2/10) (225/100)).map StrideRec.ic)
        0 3 (1/50) (225/100)).length
      ≠ (strideBuilder [0, 50, 100] [10, 60, 110, 160] (1/50) (2/10) (225/100)).length := by
  decide

/-- Maximum of the slice `l[i:j]`, with numpy slice semantics; `0` is returned
for an empty slice (the concrete inputs below keep every slice nonempty). -/
def sliceMax (l : List ℚ) (i j : ℕ) : ℚ :=
  match (l.drop i).take (j - i) with
  | [] => 0
  | x :: xs => xs.foldl max x

/-- Minimum of the slice `l[i:j]`, with numpy slice semantics. -/
def sliceMin (l : List ℚ) (i j : ℕ) : ℚ :=
  match (l.drop i).take (j - i) with
  | [] => 0
  | x :: xs => xs.foldl min x

/-- Lines 309-317: the per-bout `delta h` loop.  `vert_pos` is the
twice-integrated vertical signal of the bout, `flags` the accumulated
`gait['b valid cycle']` list, `icAll` the accumulated `gait['IC']` list,
`bstart` the absolute bout start.  The loop runs `range(sib - 1)` and appends
either the scaled max-min difference (the factor `981/100` is the `* 9.81`
conversion to meters) or `NaN`, modelled as `none`. -/
def deltaHForBout (vert_pos : List ℚ) (flags : List Bool) (icAll : List ℕ)
    (bstart ig sib : ℕ) : List (Option ℚ) :=
  (List.range (sib - 1)).map (fun i : ℕ =>
    if flags.getD (ig + i) false then
      some ((sliceMax vert_pos (icAll.getD (ig + i) 0 - bstart)
              (icAll.getD (ig + i + 1) 0 - bstart)
            - sliceMin vert_pos (icAll.getD (ig + i) 0 - bstart)
              (icAll.getD (ig + i + 1) 0 - bstart)) * (981/100))
    else none)

/-- C6: `delta h` does not get one entry per accepted stride.  On a bout with
3 accepted strides the loop `for i in range(sib - 1)` appends only 2 entries,
one short of the stride count. -/
theorem deltaH_one_entry_short :
    (strideBuilder [0, 50, 100] [10, 60, 110, 160] (1/50) (2/10) (225/100)).length = 3 ∧
    (deltaHForBout (List.replicate 101 0)
        (validCycleFlagsForBout [0, 50, 100] 0 3 (1/50) (225/100))
        [0, 50, 100] 0 0 3).length = 2 ∧
    (2 : ℕ) ≠ 3 := by
  decide

/-- Boolean-mask advanced indexing `arr[mask]`: numpy returns a fresh copy
holding the selected entries. -/
def numpyBoolMaskGet (col : List (Option ℚ)) (mask : List Bool) : List (Option ℚ) :=
  ((col.zip mask).filter (fun p => p.2)).map (fun p => p.1)

/-- Slice assignment `arr[:-k] = vals`: replaces all but the last `k` entries
of the buffer it is applied to. -/
def numpySliceAssignDropLast (arr vals : List (Option ℚ)) (k : ℕ) : List (Option ℚ) :=
  vals.take (arr.length - k) ++ arr.drop (arr.length - k)

/-- One statement `gait[param][mask][:-k] = vals` of lines 364-377.
`gait[param][mask]` evaluates to a fresh copy (advanced indexing), the slice
assignment mutates only that temporary, and the dict entry keeps referring to
the original buffer, so the statement leaves the column unchanged. -/
def chainedMaskSliceAssign (col : List (Option ℚ)) (mask : List Bool)
    (vals : List (Option ℚ)) (k : ℕ) : List (Option ℚ) :=
  let tmp := numpyBoolMaskGet col mask
  let _written := numpySliceAssignDropLast tmp vals k
  col

/-- The right-hand side `(gait['IC'][mask][2:] - gait['IC'][mask][:-2]) * dt`
of the stride-time assignment (lines 368-369), for a group whose masked IC
column is `icM`. -/
def strideTimeVals (icM : List ℕ) (dt : ℚ) : List (Option ℚ) :=
  ((icM.drop 2).zip icM).map (fun p => some (((p.1 : ℚ) - (p.2 : ℚ)) * dt))

/-- C5: the per-group timing writes do not persist.  For a single group with
masked ICs `[0, 50, 100]` and `dt = 1/50` the claimed stride time for row 0 is
`(IC[2] - IC[0]) * dt = 2`, but the chained mask-then-slice assignment writes
into a temporary copy and the stride-time column of the table is returned
unchanged, still all-`NaN`. -/
theorem strideTime_write_not_persisted :
    chainedMaskSliceAssign [none, none, none] [true, true, true]
        (strideTimeVals [0, 50, 100] (1/50)) 2 = [none, none, none] ∧
    strideTimeVals [0, 50, 100] (1/50) = [some 2] ∧
    ([none, none, none] : List (Option ℚ)).getD 0 none ≠ some 2 := by
  refine ⟨rfl, ?_, ?_⟩ <;> decide

/-- Number of positional parameters besides `self` in the definition
`def _get_gait_bouts(self, classification, dt)` (line 414). -/
def getGaitBoutsParamCount : ℕ := 2

/-- Number of positional arguments at the call site
`self._get_gait_bouts(gait_class[start:stop])` inside `_predict` (line 213). -/
def getGaitBoutsCallArgCount : ℕ := 1

/-- Python positional-call semantics: the body runs only when the argument
count matches the parameter count; otherwise the interpreter raises
`TypeError` before entering the body. -/
def pythonPositionalCall {α : Type} (params args : ℕ) (body : Unit → Except PyErr α) :
    Except PyErr α :=
  if args = params then body () else .error .typeError

/-- The segmenter invocation performed by `_predict` for one day window. -/
def predictSegmenterCall (c : List Bool) (dt maxSep minBout : ℚ) :
    Except PyErr (List (ℕ × ℕ)) :=
  pythonPositionalCall getGaitBoutsParamCount getGaitBoutsCallArgCount
    (fun _ => getGaitBouts c dt maxSep minBout)

/-- C9: no run of the pipeline produces a result table at all: on every input
the call `self._get_gait_bouts(gait_class[start:stop])` supplies one argument
to a method requiring two, so each invocation deterministically raises
`TypeError` inside the first day window, before any result table exists. -/
theorem predict_always_raises_before_results (c : List Bool) (dt maxSep minBout : ℚ) :
    predictSegmenterCall c dt maxSep minBout = .error .typeError := rfl
